import Mathlib

/-!
Verification of the `wasc` web-accessibility checker core against its
specification.  The Python sources (`wasc/utils.py`, `wasc/checkers.py`,
`wasc/checker_factory.py`, `wasc/criterion.py`, legacy
`wasc/default_checkers.py`) are shallowly embedded below: strings are
`List Char` / `String`, the parsed HTML document (BeautifulSoup tree) is a
list of nodes, network calls are an explicit fetch-outcome parameter, and
Python exceptions that can escape a function are modelled with `Except`.
-/

/-! ## Python string primitives (semantics of `str.strip`, `str.split`,
`str.join`, `str.startswith`, `str.endswith`, substring search). -/

/-- The whitespace characters stripped by Python `str.strip()` and matched
by the regex class `\s` (Unicode mode). -/
def pyWsChars : List Char :=
  [' ', '\t', '\n', '\r', '\x0b', '\x0c', '\x1c', '\x1d', '\x1e', '\x1f',
   '\x85', '\xa0', '\u1680', '\u2000', '\u2001', '\u2002', '\u2003', '\u2004',
   '\u2005', '\u2006', '\u2007', '\u2008', '\u2009', '\u200a', '\u2028',
   '\u2029', '\u202f', '\u205f', '\u3000']

def pyWs (c : Char) : Bool := pyWsChars.contains c

/-- `s.startswith(pat)` for Python strings (first argument is the subject). -/
def startswith : List Char → List Char → Bool
  | _, [] => true
  | [], _ :: _ => false
  | c :: cs, p :: ps => c == p && startswith cs ps

/-- `s.endswith(pat)` for Python strings. -/
def endswith (s pat : List Char) : Bool := startswith s.reverse pat.reverse

/-- Remove the longest run of characters satisfying `p` from the end. -/
def dropTrailing (p : Char → Bool) (l : List Char) : List Char :=
  (l.reverse.dropWhile p).reverse

/-- Python `str.strip(chars)`: remove characters satisfying `p` from both
ends. -/
def pystrip (p : Char → Bool) (l : List Char) : List Char :=
  dropTrailing p (l.dropWhile p)

/-- `s.strip("/")` as used by `check_and_correct_url`. -/
def stripSlashes (l : List Char) : List Char := pystrip (fun c => c == '/') l

/-- Python `s.split(sep)` for a one-character separator: always returns a
non-empty list of (possibly empty) fields. -/
def pysplit (sep : Char) : List Char → List (List Char)
  | [] => [[]]
  | c :: cs =>
    if c == sep then [] :: pysplit sep cs
    else
      match pysplit sep cs with
      | [] => [[c]]
      | s :: ss => (c :: s) :: ss

/-- Python `sep.join(fields)` for a one-character separator. -/
def pyjoin (sep : Char) : List (List Char) → List Char
  | [] => []
  | [s] => s
  | s :: s2 :: ss => s ++ sep :: pyjoin sep (s2 :: ss)

/-! ## `wasc.utils.check_and_correct_url` (the URL Resolver) -/

/-- Core of `wasc.utils.check_and_correct_url` on character lists.
Mirrors the source: strip `/` from both ends of both inputs; return the
target unchanged if it starts with `"http"`; collapse a single overlapping
path segment; otherwise concatenate. -/
def ccu (target0 root0 : List Char) : List Char :=
  let target_url := stripSlashes target0
  let root_url := stripSlashes root0
  if startswith target_url "http".data then target_url
  else
    let target_subpath := pysplit '/' target_url
    let root_subpath := pysplit '/' root_url
    if target_subpath.headD [] == root_subpath.getLastD [] then
      root_url ++ '/' :: pyjoin '/' target_subpath.tail
    else
      root_url ++ '/' :: target_url

/-- `wasc.utils.check_and_correct_url`. -/
def check_and_correct_url (target_url root_url : String) : String :=
  ⟨ccu target_url.data root_url.data⟩

/-! ### Lemmas about the string primitives -/

theorem pysplit_ne_nil (sep : Char) : ∀ l, pysplit sep l ≠ []
  | [] => by simp [pysplit]
  | c :: cs => by
    simp only [pysplit]
    split
    · simp
    · split <;> simp

theorem pysplit_append_cons (rest : List Char) :
    ∀ t : List Char, '/' ∉ t → pysplit '/' (t ++ '/' :: rest) = t :: pysplit '/' rest
  | [], _ => by simp [pysplit]
  | c :: t, ht => by
    have hc : ¬ c = '/' := fun h => ht (h ▸ List.mem_cons_self c t)
    have ht' : '/' ∉ t := fun h => ht (List.mem_cons_of_mem c h)
    have ih := pysplit_append_cons rest t ht'
    simp only [List.cons_append, pysplit, beq_iff_eq, hc, if_false, List.append_eq, ih]

theorem pysplit_no_sep : ∀ t : List Char, '/' ∉ t → pysplit '/' t = [t]
  | [], _ => by simp [pysplit]
  | c :: t, ht => by
    have hc : ¬ c = '/' := fun h => ht (h ▸ List.mem_cons_self c t)
    have ht' : '/' ∉ t := fun h => ht (List.mem_cons_of_mem c h)
    simp only [pysplit, beq_iff_eq, hc, if_false, pysplit_no_sep t ht']

theorem getLastD_of_ne_nil {α : Type} (l : List α) (h : l ≠ []) (d d' : α) :
    l.getLastD d = l.getLastD d' := by
  cases l with
  | nil => exact absurd rfl h
  | cons a l' => rw [List.getLastD_cons, List.getLastD_cons]

theorem pysplit_length_two : ∀ l : List Char, '/' ∈ l → 2 ≤ (pysplit '/' l).length
  | [], h => absurd h (List.not_mem_nil '/')
  | c :: cs, h => by
    by_cases hc : c = '/'
    · have h1 := pysplit_ne_nil '/' cs
      simp only [pysplit, hc, beq_self_eq_true, if_true, List.length_cons]
      have : 1 ≤ (pysplit '/' cs).length := by
        cases hcs : pysplit '/' cs with
        | nil => exact absurd hcs h1
        | cons a l => simp
      omega
    · have hm : '/' ∈ cs := by
        rcases List.mem_cons.mp h with h' | h'
        · exact absurd h'.symm hc
        · exact h'
      have ih := pysplit_length_two cs hm
      simp only [pysplit, beq_iff_eq, hc, if_false]
      cases hcs : pysplit '/' cs with
      | nil => exact absurd hcs (pysplit_ne_nil '/' cs)
      | cons s ss =>
        rw [hcs] at ih
        simpa using ih

theorem getLastD_pysplit_append (ys : List Char) :
    ∀ xs : List Char, (pysplit '/' (xs ++ '/' :: ys)).getLastD [] = (pysplit '/' ys).getLastD []
  | [] => by
    simp only [List.nil_append, pysplit, beq_self_eq_true, if_true, List.getLastD_cons]
  | c :: xs => by
    by_cases hc : c = '/'
    · have ih := getLastD_pysplit_append ys xs
      simp only [List.cons_append, pysplit, hc, beq_self_eq_true, if_true, List.getLastD_cons,
        List.append_eq]
      exact ih
    · have ih := getLastD_pysplit_append ys xs
      have h2 := pysplit_length_two (xs ++ '/' :: ys) (by simp)
      simp only [List.cons_append, pysplit, beq_iff_eq, hc, if_false, List.append_eq]
      cases hcs : pysplit '/' (xs ++ '/' :: ys) with
      | nil => exact absurd hcs (pysplit_ne_nil '/' (xs ++ '/' :: ys))
      | cons s ss =>
        rw [hcs] at ih h2
        cases ss with
        | nil => simp at h2
        | cons s2 ss' =>
          rw [List.getLastD_cons] at ih ⊢
          rw [getLastD_of_ne_nil (s2 :: ss') (by simp) (c :: s) s]
          exact ih

theorem pyjoin_pysplit : ∀ l : List Char, pyjoin '/' (pysplit '/' l) = l
  | [] => by simp [pysplit, pyjoin]
  | c :: cs => by
    have ih := pyjoin_pysplit cs
    by_cases hc : c = '/'
    · simp only [pysplit, hc, beq_self_eq_true, if_true]
      cases hcs : pysplit '/' cs with
      | nil => exact absurd hcs (pysplit_ne_nil '/' cs)
      | cons s ss =>
        rw [hcs] at ih
        simp only [pyjoin, List.nil_append]
        rw [ih]
    · simp only [pysplit, beq_iff_eq, hc, if_false]
      cases hcs : pysplit '/' cs with
      | nil => exact absurd hcs (pysplit_ne_nil '/' cs)
      | cons s ss =>
        rw [hcs] at ih
        cases ss with
        | nil => simp only [pyjoin] at ih ⊢; rw [ih]
        | cons s2 ss' =>
          simp only [pyjoin, List.cons_append] at ih ⊢
          rw [ih]

theorem head?_of_dropWhile_eq_some {p : Char → Bool} :
    ∀ {l : List Char} {a : Char}, (l.dropWhile p).head? = some a → p a = false
  | [], a, h => by simp [List.dropWhile] at h
  | c :: cs, a, h => by
    rw [List.dropWhile_cons] at h
    by_cases hc : p c
    · rw [if_pos hc] at h
      exact head?_of_dropWhile_eq_some h
    · rw [if_neg hc] at h
      simp only [List.head?_cons, Option.some.injEq] at h
      rw [← h]
      exact Bool.not_eq_true _ ▸ (Bool.eq_false_iff.mpr hc)

theorem dropWhile_eq_self_of_head {p : Char → Bool} {l : List Char}
    (h : ∀ a, l.head? = some a → p a = false) : l.dropWhile p = l := by
  cases l with
  | nil => rfl
  | cons c cs =>
    rw [List.dropWhile_cons, if_neg]
    simp [h c rfl]

theorem dropTrailing_nil (p : Char → Bool) : dropTrailing p [] = [] := rfl

theorem dropTrailing_append {p : Char → Bool} (l m : List Char)
    (h : ∀ a, l.getLast? = some a → p a = false) :
    dropTrailing p (l ++ m) = l ++ dropTrailing p m := by
  unfold dropTrailing
  rw [List.reverse_append, List.dropWhile_append]
  by_cases he : (List.dropWhile p m.reverse).isEmpty
  · rw [if_pos he]
    have hl : List.dropWhile p l.reverse = l.reverse :=
      dropWhile_eq_self_of_head (fun a ha => h a (by rwa [List.head?_reverse] at ha))
    have hm : List.dropWhile p m.reverse = [] := List.isEmpty_iff.mp he
    rw [hl, hm, List.reverse_reverse]
    simp
  · rw [if_neg he, List.reverse_append, List.reverse_reverse]

theorem getLast?_dropTrailing {p : Char → Bool} {l : List Char} {a : Char}
    (h : (dropTrailing p l).getLast? = some a) : p a = false := by
  unfold dropTrailing at h
  rw [List.getLast?_reverse] at h
  exact head?_of_dropWhile_eq_some h

theorem head?_pystrip {p : Char → Bool} {l : List Char} {a : Char}
    (h : (pystrip p l).head? = some a) : p a = false := by
  unfold pystrip dropTrailing at h
  have hsplit : l.dropWhile p =
      ((l.dropWhile p).reverse.dropWhile p).reverse ++
        ((l.dropWhile p).reverse.takeWhile p).reverse := by
    have h2 : (l.dropWhile p).reverse =
        (l.dropWhile p).reverse.takeWhile p ++ (l.dropWhile p).reverse.dropWhile p :=
      (List.takeWhile_append_dropWhile p (l.dropWhile p).reverse).symm
    calc l.dropWhile p = (l.dropWhile p).reverse.reverse := (List.reverse_reverse _).symm
      _ = ((l.dropWhile p).reverse.takeWhile p ++ (l.dropWhile p).reverse.dropWhile p).reverse :=
        by rw [← h2]
      _ = _ := List.reverse_append _ _
  have hh : (l.dropWhile p).head? = some a := by
    rw [hsplit]
    cases hx : ((l.dropWhile p).reverse.dropWhile p).reverse with
    | nil => rw [hx] at h; simp at h
    | cons b bs =>
      rw [hx] at h
      simp only [List.head?_cons, Option.some.injEq] at h
      simp [h]
  exact head?_of_dropWhile_eq_some hh

theorem pystrip_idem (p : Char → Bool) (l : List Char) :
    pystrip p (pystrip p l) = pystrip p l := by
  have h1 : (pystrip p l).dropWhile p = pystrip p l :=
    dropWhile_eq_self_of_head (fun a ha => head?_pystrip ha)
  have h2 : ∀ a, (pystrip p l).getLast? = some a → p a = false := fun a ha =>
    getLast?_dropTrailing ha
  show dropTrailing p ((pystrip p l).dropWhile p) = pystrip p l
  rw [h1]
  have h3 := dropTrailing_append (pystrip p l) [] h2
  rw [List.append_nil, dropTrailing_nil, List.append_nil] at h3
  exact h3

theorem stripSlashes_idem (l : List Char) :
    stripSlashes (stripSlashes l) = stripSlashes l :=
  pystrip_idem _ l

theorem startswith_nil : ∀ l : List Char, startswith l [] = true
  | [] => rfl
  | _ :: _ => rfl

theorem startswith_append {pat : List Char} :
    ∀ {l : List Char}, startswith l pat = true → ∀ m, startswith (l ++ m) pat = true := by
  induction pat with
  | nil => intro l _ m; exact startswith_nil _
  | cons p ps ih =>
    intro l h m
    cases l with
    | nil => simp [startswith] at h
    | cons c cs =>
      simp only [startswith, Bool.and_eq_true] at h ⊢
      exact ⟨h.1, ih h.2 m⟩

theorem startswith_head {p : Char} {ps l : List Char}
    (h : startswith l (p :: ps) = true) : l.head? = some p := by
  cases l with
  | nil => simp [startswith] at h
  | cons c cs =>
    simp only [startswith, Bool.and_eq_true, beq_iff_eq] at h
    simp [h.1]

theorem ccu_def (target0 root0 : List Char) :
    ccu target0 root0 =
      if startswith (stripSlashes target0) "http".data then stripSlashes target0
      else if (pysplit '/' (stripSlashes target0)).headD [] ==
          (pysplit '/' (stripSlashes root0)).getLastD [] then
        stripSlashes root0 ++ '/' :: pyjoin '/' (pysplit '/' (stripSlashes target0)).tail
      else stripSlashes root0 ++ '/' :: stripSlashes target0 := rfl

theorem getLast?_stripSlashes {l : List Char} {a : Char}
    (h : (stripSlashes l).getLast? = some a) : (a == '/') = false := by
  unfold stripSlashes pystrip at h
  exact @getLast?_dropTrailing (fun c => c == '/') (List.dropWhile (fun c => c == '/') l) a h

theorem http_head {l : List Char} (h : startswith l "http".data = true) :
    l.head? = some 'h' := by
  have h2 : startswith l ('h' :: "ttp".data) = true := h
  exact startswith_head h2

theorem stripSlashes_append_of_http (R M : List Char)
    (hh : startswith R "http".data = true)
    (hlast : ∀ a, R.getLast? = some a → (a == '/') = false) :
    stripSlashes (R ++ M) = R ++ dropTrailing (fun c => c == '/') M := by
  have hhead := http_head hh
  show pystrip (fun c => c == '/') (R ++ M) = _
  unfold pystrip
  have h1 : (R ++ M).dropWhile (fun c => c == '/') = R ++ M := by
    apply dropWhile_eq_self_of_head
    intro a ha
    cases R with
    | nil => simp at hhead
    | cons r rs =>
      simp only [List.head?_cons, Option.some.injEq] at hhead
      simp only [List.cons_append, List.head?_cons, Option.some.injEq] at ha
      rw [← ha, hhead]
      rfl
  rw [h1]
  exact dropTrailing_append R M hlast

theorem ccu_cases (cd rd : List Char) :
    (startswith (stripSlashes cd) "http".data = true ∧ ccu cd rd = stripSlashes cd) ∨
    (∃ X, ccu cd rd = stripSlashes rd ++ '/' :: X) := by
  rw [ccu_def]
  by_cases h : startswith (stripSlashes cd) "http".data = true
  · exact Or.inl ⟨h, by rw [if_pos h]⟩
  · rw [if_neg h]
    right
    by_cases h2 : ((pysplit '/' (stripSlashes cd)).headD [] ==
        (pysplit '/' (stripSlashes rd)).getLastD []) = true
    · rw [if_pos h2]; exact ⟨_, rfl⟩
    · rw [if_neg h2]; exact ⟨_, rfl⟩

theorem ccu_ccu (cd rd : List Char)
    (hr : startswith (stripSlashes rd) "http".data = true) :
    ccu (ccu cd rd) rd = stripSlashes (ccu cd rd) := by
  rcases ccu_cases cd rd with ⟨hh, heq⟩ | ⟨X, heq⟩
  · rw [heq, ccu_def, stripSlashes_idem, if_pos hh]
  · rw [heq]
    have hlast : ∀ a, (stripSlashes rd).getLast? = some a → (a == '/') = false :=
      fun a ha => getLast?_stripSlashes ha
    have hstrip := stripSlashes_append_of_http (stripSlashes rd) ('/' :: X) hr hlast
    have hh2 : startswith (stripSlashes rd ++ dropTrailing (fun c => c == '/') ('/' :: X))
        "http".data = true := startswith_append hr _
    rw [ccu_def, hstrip, if_pos hh2]

/-- C2: when the last path segment of the (slash-stripped) root equals the
first path segment of the (slash-stripped, non-absolute) candidate, the
resolver collapses the overlap: the shared segment appears exactly once in
the output, which is the root followed by the candidate with the shared
head segment removed — not the naive concatenation. -/
theorem C2_overlap_collapsing (A t rest : String)
    (ht : '/' ∉ t.data)
    (hcand : stripSlashes (t ++ "/" ++ rest).data = (t ++ "/" ++ rest).data)
    (hroot : stripSlashes (A ++ "/" ++ t).data = (A ++ "/" ++ t).data)
    (hhttp : startswith (t ++ "/" ++ rest).data "http".data = false) :
    check_and_correct_url (t ++ "/" ++ rest) (A ++ "/" ++ t) =
      A ++ "/" ++ t ++ "/" ++ rest := by
  have hdc : (t ++ "/" ++ rest).data = t.data ++ '/' :: rest.data := by
    simp [String.data_append]
  have hdr : (A ++ "/" ++ t).data = A.data ++ '/' :: t.data := by
    simp [String.data_append]
  rw [hdc] at hcand hhttp
  rw [hdr] at hroot
  apply String.ext
  show ccu (t ++ "/" ++ rest).data (A ++ "/" ++ t).data = _
  rw [hdc, hdr, ccu_def, hcand, hroot]
  rw [pysplit_append_cons rest.data t.data ht]
  rw [getLastD_pysplit_append t.data A.data, pysplit_no_sep t.data ht]
  simp only [List.headD_cons, List.getLastD_cons, List.getLastD_nil, beq_self_eq_true, if_true,
    Bool.false_eq_true, if_false, hhttp, List.tail_cons, pyjoin_pysplit]
  simp [String.data_append]

/-- C2 witness: `check_and_correct_url "fr/test" "https://www.example.com/fr"`
collapses the shared `fr` segment (the repository's own test case). -/
theorem C2_overlap_collapsing_witness :
    check_and_correct_url ("fr" ++ "/" ++ "test") ("https://www.example.com" ++ "/" ++ "fr") =
      "https://www.example.com" ++ "/" ++ "fr" ++ "/" ++ "test" :=
  C2_overlap_collapsing "https://www.example.com" "fr" "test"
    (by decide) (by decide) (by decide) (by decide)

/-- C3 counterexample: the resolver is not idempotent as claimed.
`"http://a/"` is an absolute URL (it starts with `"http"`), yet resolving
it strips the trailing slash; and resolving the resolver's own output
`resolve("fr", "http://x/fr") = "http://x/fr/"` against the same root
yields `"http://x/fr"`, not the same URL. -/
theorem C3_idempotence_cex :
    startswith ("http://a/").data "http".data = true ∧
    check_and_correct_url "http://a/" "https://r" ≠ "http://a/" ∧
    check_and_correct_url (check_and_correct_url "fr" "http://x/fr") "http://x/fr" ≠
      check_and_correct_url "fr" "http://x/fr" := by
  refine ⟨rfl, ?_, ?_⟩ <;> decide

/-- C3 (amended): idempotence holds only up to slash-stripping: an absolute
URL with no leading/trailing slashes is returned unchanged, and re-resolving
the resolver's output against a root whose stripped form is absolute yields
the slash-stripped output (so the second application is the identity exactly
on slash-free outputs). -/
theorem C3_idempotent_mod_strip :
    (∀ u root : String, startswith u.data "http".data = true →
      stripSlashes u.data = u.data → check_and_correct_url u root = u) ∧
    (∀ c r : String, startswith (stripSlashes r.data) "http".data = true →
      check_and_correct_url (check_and_correct_url c r) r =
        ⟨stripSlashes (check_and_correct_url c r).data⟩) := by
  constructor
  · intro u root hu hs
    apply String.ext
    show ccu u.data root.data = u.data
    rw [ccu_def, hs, if_pos hu]
  · intro c r hr
    apply String.ext
    show ccu (ccu c.data r.data) r.data = stripSlashes (ccu c.data r.data)
    exact ccu_ccu c.data r.data hr

/-- C3 witness: both amended statements at concrete inputs. -/
theorem C3_idempotent_mod_strip_witness :
    check_and_correct_url "http://a" "https://r" = "http://a" ∧
    check_and_correct_url (check_and_correct_url "fr" "http://x/fr") "http://x/fr" =
      ⟨stripSlashes (check_and_correct_url "fr" "http://x/fr").data⟩ :=
  ⟨C3_idempotent_mod_strip.1 "http://a" "https://r" (by decide) (by decide),
   C3_idempotent_mod_strip.2 "fr" "http://x/fr" (by decide)⟩

/-! ## The parsed HTML document (BeautifulSoup tree)

A parsed page is a list of top-level nodes; an element node carries its tag
name, its attribute dictionary and its children.  The BeautifulSoup object
itself behaves as a pseudo-element named `"[document]"` with no attributes
and no parent, so ancestor chains computed below end with `docTag`; walking
past it corresponds to `tag.parent` becoming Python `None`. -/

structure TagInfo where
  name : String
  attrs : List (String × String)
deriving DecidableEq

inductive Node where
  | elem (info : TagInfo) (children : List Node)
  | text (s : String)
  | doctype (v : String)

/-- The BeautifulSoup root pseudo-element. -/
def docTag : TagInfo := ⟨"[document]", []⟩

/-- All text nodes of a forest in document order, each with its chain of
ancestors (innermost first).  `find_all(string=...)` filters this list. -/
def locTexts (anc : List TagInfo) : List Node → List (String × List TagInfo)
  | [] => []
  | Node.text s :: rest => (s, anc) :: locTexts anc rest
  | Node.doctype _ :: rest => locTexts anc rest
  | Node.elem t cs :: rest => locTexts (t :: anc) cs ++ locTexts anc rest

/-- All element nodes of a forest in document order (pre-order, as
BeautifulSoup `find_all(name)` yields them), each with its ancestor chain. -/
def locElems (anc : List TagInfo) : List Node → List (TagInfo × List TagInfo)
  | [] => []
  | Node.text _ :: rest => locElems anc rest
  | Node.doctype _ :: rest => locElems anc rest
  | Node.elem t cs :: rest => (t, anc) :: (locElems (t :: anc) cs ++ locElems anc rest)

/-- `tag.attrs[key]` as an optional lookup (a missing key raises `KeyError`
in Python; callers model the `try/except` explicitly). -/
def lookupAttr (t : TagInfo) (key : String) : Option String :=
  (t.attrs.find? (fun p => p.1 == key)).map (fun p => p.2)

/-! ## The regex `ACCESS_PATTERN` of `wasc.checkers`

`re.compile("Accessibilité[ \xa0]:[ \xa0](non|partiellement|totalement)"
            "[ \xa0]conforme", re.IGNORECASE)`, used via `re.search`
semantics (match anywhere in the string).  No alternative of the
alternation is a prefix of another and the character following each
alternative is constrained to a space class, so the backtracking regex is
equivalent to the deterministic matcher below. -/

/-- Case folding as performed by `re.IGNORECASE` on the characters that can
occur in the patterns of this program: ASCII letters and `É`. -/
def lc (c : Char) : Char := if c = 'É' then 'é' else c.toLower

/-- Try to consume `pat` case-insensitively from the head of `l`, returning
the remainder. -/
def stripPrefixCI : List Char → List Char → Option (List Char)
  | [], l => some l
  | _ :: _, [] => none
  | p :: ps, c :: cs => if lc c = lc p then stripPrefixCI ps cs else none

/-- The regex character class `[ \xa0]`. -/
def isSpNb (c : Char) : Bool := c == ' ' || c == '\xa0'

/-- The alternation `(non|partiellement|totalement)`. -/
def levelAt (l : List Char) : Option (List Char) :=
  match stripPrefixCI "non".data l with
  | some r => some r
  | none =>
    match stripPrefixCI "partiellement".data l with
    | some r => some r
    | none => stripPrefixCI "totalement".data l

/-- Does `ACCESS_PATTERN` match at the head of `l`? -/
def accessAt (l : List Char) : Bool :=
  match stripPrefixCI "accessibilité".data l with
  | none => false
  | some l1 =>
    match l1 with
    | [] => false
    | c1 :: l2 =>
      isSpNb c1 &&
        match l2 with
        | ':' :: l3 =>
          (match l3 with
          | [] => false
          | c2 :: l4 =>
            isSpNb c2 &&
              match levelAt l4 with
              | none => false
              | some l5 =>
                match l5 with
                | [] => false
                | c3 :: l6 => isSpNb c3 && (stripPrefixCI "conforme".data l6).isSome)
        | _ => false

/-- `ACCESS_PATTERN.search`: try every position. -/
def accessSearch : List Char → Bool
  | [] => accessAt []
  | c :: cs => accessAt (c :: cs) || accessSearch cs

def ACCESS_PATTERN (s : String) : Bool := accessSearch s.data

/-! ## Constants of `wasc.checkers` -/

def FAIL : String := "échec"
def PRESENT : String := "présent"
def OK : Nat := 200

/-! ## `wasc.utils.find_link`

The source walks `access_tag = access_tag.parent` until the node is `None`
or its name is `"a"` or `"html"`, then evaluates `access_tag.attrs["href"]`
inside `try/except KeyError`.  When the walk exhausts every ancestor the
variable is Python `None` and `None.attrs` raises `AttributeError`, which
is *not* caught; `Except.error ()` models that escaping exception. -/
def find_link (access_tag : List TagInfo) (root_url : String) :
    Except Unit (Option String) :=
  match access_tag with
  | [] => Except.error ()
  | t :: ts =>
    if t.name == "a" || t.name == "html" then
      match lookupAttr t "href" with
      | some href => Except.ok (some (check_and_correct_url href root_url))
      | none => Except.ok none
    else find_link ts root_url

/-- The ancestor walk as a first-match search: the nearest enclosing anchor
or `html` element. -/
def walkToAnchor (anc : List TagInfo) : Option TagInfo :=
  anc.find? (fun t => t.name == "a" || t.name == "html")

theorem find_link_found {anc : List TagInfo} {g : TagInfo} {h : String}
    (hw : walkToAnchor anc = some g) (hh : lookupAttr g "href" = some h)
    (root : String) :
    find_link anc root = Except.ok (some (check_and_correct_url h root)) := by
  induction anc with
  | nil => simp [walkToAnchor] at hw
  | cons t ts ih =>
    rw [walkToAnchor, List.find?_cons] at hw
    cases hcond : (t.name == "a" || t.name == "html") with
    | true =>
      rw [hcond] at hw
      have hw' : some t = some g := hw
      cases hw'
      rw [find_link, if_pos hcond, hh]
    | false =>
      rw [hcond] at hw
      have hw' : walkToAnchor ts = some g := hw
      rw [find_link, if_neg (by simp [hcond])]
      exact ih hw'

theorem find_link_no_href {anc : List TagInfo} {g : TagInfo}
    (hw : walkToAnchor anc = some g) (hh : lookupAttr g "href" = none)
    (root : String) : find_link anc root = Except.ok none := by
  induction anc with
  | nil => simp [walkToAnchor] at hw
  | cons t ts ih =>
    rw [walkToAnchor, List.find?_cons] at hw
    cases hcond : (t.name == "a" || t.name == "html") with
    | true =>
      rw [hcond] at hw
      have hw' : some t = some g := hw
      cases hw'
      rw [find_link, if_pos hcond, hh]
    | false =>
      rw [hcond] at hw
      have hw' : walkToAnchor ts = some g := hw
      rw [find_link, if_neg (by simp [hcond])]
      exact ih hw'

theorem find_link_exhausted {anc : List TagInfo}
    (hw : walkToAnchor anc = none) (root : String) :
    find_link anc root = Except.error () := by
  induction anc with
  | nil => rfl
  | cons t ts ih =>
    rw [walkToAnchor, List.find?_cons] at hw
    cases hcond : (t.name == "a" || t.name == "html") with
    | true =>
      rw [hcond] at hw
      exact absurd hw (by simp)
    | false =>
      rw [hcond] at hw
      have hw' : walkToAnchor ts = none := hw
      rw [find_link, if_neg (by simp [hcond])]
      exact ih hw'

deriving instance DecidableEq for Except

/-- C4 counterexample: for a text node matched inside a parsed document with
no `html` element and no enclosing anchor (ancestors: a `p` element, then
the document root), `find_link` raises `AttributeError` (`None.attrs` after
the walk passes the root) instead of returning the absent value. -/
theorem C4_find_link_cex :
    find_link [⟨"p", []⟩, docTag] "https://r" = Except.error () := by decide

/-- C4 (amended): the ancestor walk of `find_link` stops at the nearest
anchor or `html` element; if that element has an `href`, the resolved link
is returned, and if it lacks one, the absent value is returned without
raising; but when the walk exhausts the ancestor chain without meeting an
anchor or `html` element (a document with no `html` root), an
`AttributeError` escapes instead of the absent value. -/
theorem C4_find_link_walk (anc : List TagInfo) (root : String) :
    (∀ g h, walkToAnchor anc = some g → lookupAttr g "href" = some h →
      find_link anc root = Except.ok (some (check_and_correct_url h root))) ∧
    (∀ g, walkToAnchor anc = some g → lookupAttr g "href" = none →
      find_link anc root = Except.ok none) ∧
    (walkToAnchor anc = none → find_link anc root = Except.error ()) :=
  ⟨fun _ h hw hh => find_link_found hw hh root,
   fun _ hw hh => find_link_no_href hw hh root,
   fun hw => find_link_exhausted hw root⟩

/-- C4 witness: the three amended behaviours at concrete ancestor chains. -/
theorem C4_find_link_walk_witness :
    find_link [⟨"a", [("href", "/accessibilite/")]⟩, ⟨"html", []⟩, docTag] "https://x" =
      Except.ok (some (check_and_correct_url "/accessibilite/" "https://x")) ∧
    find_link [⟨"a", []⟩, ⟨"html", []⟩, docTag] "https://x" = Except.ok none ∧
    find_link [⟨"p", []⟩, docTag] "https://x" = Except.error () :=
  ⟨(C4_find_link_walk [⟨"a", [("href", "/accessibilite/")]⟩, ⟨"html", []⟩, docTag] "https://x").1
      ⟨"a", [("href", "/accessibilite/")]⟩ "/accessibilite/" (by decide) (by decide),
   (C4_find_link_walk [⟨"a", []⟩, ⟨"html", []⟩, docTag] "https://x").2.1
      ⟨"a", []⟩ (by decide) (by decide),
   (C4_find_link_walk [⟨"p", []⟩, docTag] "https://x").2.2 (by decide)⟩

/-! ## `wasc.checkers.AccessChecker` (the AccessibilityMention checker) -/

/-- `AccessChecker.execute`: `find_all(string=ACCESS_PATTERN)` then
`mention[0].split(":")[1].strip()`.  Taking the first match of `find_all`
is `find?`.  Index `[1]` always exists for a matching string (the pattern
contains a colon), so `getD 1 []` is the faithful totalization of the
Python indexing. -/
def AccessChecker_execute (web_page : List Node) : String :=
  match (locTexts [docTag] web_page).find? (fun p => ACCESS_PATTERN p.1) with
  | some p => ⟨pystrip pyWs ((pysplit ':' p.1.data).getD 1 [])⟩
  | none => FAIL

/-- A canonical accessibility mention with the spaces around the colon and
before `conforme` drawn from the regex class `[ \xa0]`. -/
def mentionOf (sp1 sp2 sp3 : Char) (lvl : String) : String :=
  "Accessibilité" ++ ⟨[sp1]⟩ ++ ":" ++ ⟨[sp2]⟩ ++ lvl ++ ⟨[sp3]⟩ ++ "conforme"

/-- C7 counterexample: for the matched text
`"x : y Accessibilité : non conforme"` the checker returns the segment
between the first and second colons (`"y Accessibilité"`), which is neither
the part after the pattern's colon (`"non conforme"`) nor the part after
the first colon of the text. -/
theorem C7_access_mention_cex :
    AccessChecker_execute [Node.text "x : y Accessibilité : non conforme"] =
      "y Accessibilité" ∧
    ("y Accessibilité" : String) ≠ "non conforme" ∧
    ("y Accessibilité" : String) ≠ "y Accessibilité : non conforme" := by
  refine ⟨?_, by decide, by decide⟩
  simp only [AccessChecker_execute, locTexts]
  decide

/-- C7 (amended): the checker searches all text nodes for the
`Accessibilité`-mention pattern (case-insensitively, tolerating a
non-breaking space around the colon); on a match it returns the segment of
the matched text between its first and second colons, trimmed — for a
canonical mention this is the level followed by `conforme`; the reversed
word order `conforme partiellement` does not match and yields the fail
sentinel. -/
theorem C7_access_mention (doc : List Node) (sp1 sp2 sp3 : Char) (lvl : String)
    (anc : List TagInfo)
    (h1 : isSpNb sp1 = true) (h2 : isSpNb sp2 = true) (h3 : isSpNb sp3 = true)
    (h4 : lvl ∈ (["non", "partiellement", "totalement"] : List String)) :
    ((locTexts [docTag] doc).find? (fun p => ACCESS_PATTERN p.1) =
        some (mentionOf sp1 sp2 sp3 lvl, anc) →
      AccessChecker_execute doc = lvl ++ ⟨[sp3]⟩ ++ "conforme") ∧
    AccessChecker_execute [Node.text "ACCESSIBILITÉ : NON conforme"] = "NON conforme" ∧
    AccessChecker_execute [Node.text "Accessibilité : conforme partiellement"] = FAIL := by
  refine ⟨?_, ?_, ?_⟩
  · intro hfind
    simp only [AccessChecker_execute, hfind]
    have hs1 : sp1 = ' ' ∨ sp1 = '\xa0' := by simpa [isSpNb] using h1
    have hs2 : sp2 = ' ' ∨ sp2 = '\xa0' := by simpa [isSpNb] using h2
    have hs3 : sp3 = ' ' ∨ sp3 = '\xa0' := by simpa [isSpNb] using h3
    simp only [List.mem_cons, List.mem_singleton, List.not_mem_nil, or_false] at h4
    rcases h4 with h4 | h4 | h4 <;> subst h4 <;>
      rcases hs1 with hs1 | hs1 <;> subst hs1 <;>
      rcases hs2 with hs2 | hs2 <;> subst hs2 <;>
      rcases hs3 with hs3 | hs3 <;> subst hs3 <;> decide
  · simp only [AccessChecker_execute, locTexts]
    decide
  · simp only [AccessChecker_execute, locTexts]
    decide

/-- C7 witness: a document whose only text node is the canonical mention
`"Accessibilité : non conforme"`. -/
theorem C7_access_mention_witness :
    AccessChecker_execute [Node.text (mentionOf ' ' ' ' ' ' "non")] =
      "non" ++ ⟨[' ']⟩ ++ "conforme" :=
  (C7_access_mention [Node.text (mentionOf ' ' ' ' ' ' "non")] ' ' ' ' ' ' "non" [docTag]
      rfl rfl rfl (by decide)).1
    (by simp only [locTexts]; decide)

/-! ## `wasc.checkers.AccessLinkChecker` (the AccessibilityLink checker) -/

/-- The anchors of the page: `web_page.find_all("a")`, reduced to their
tag data (the loop only reads `tag.attrs`). -/
def anchors (web_page : List Node) : List TagInfo :=
  ((locElems [docTag] web_page).filter (fun p => p.1.name == "a")).map (fun p => p.1)

/-- Tier 3 of `AccessLinkChecker.execute`: the `for tag in link_tags` loop.
A missing `href` raises `KeyError`, caught by the `except KeyError : pass`;
a resolved link that does not end in `accessibility`/`accessibilite` falls
through to the next anchor. -/
def tier3loop (root_url : String) : List TagInfo → Option String
  | [] => none
  | tag :: rest =>
    match lookupAttr tag "href" with
    | none => tier3loop root_url rest
    | some href =>
      let current_link := check_and_correct_url href root_url
      if endswith current_link.data "accessibility".data ||
          endswith current_link.data "accessibilite".data then
        some current_link
      else tier3loop root_url rest

/-- Tiers 2 and 3 of `AccessLinkChecker.execute`: the `find` with the exact
string `"Déclaration d'accessibilité"`, then the anchor scan, then `FAIL`. -/
def accessLinkTier3 (web_page : List Node) (root_url : String) : String :=
  match tier3loop root_url (anchors web_page) with
  | some link => link
  | none => FAIL

def accessLinkTier2 (web_page : List Node) (root_url : String) : Except Unit String :=
  match (locTexts [docTag] web_page).find?
      (fun p => p.1 == "Déclaration d'accessibilité") with
  | some p =>
    match find_link p.2 root_url with
    | Except.error e => Except.error e
    | Except.ok (some link) => Except.ok link
    | Except.ok none => Except.ok (accessLinkTier3 web_page root_url)
  | none => Except.ok (accessLinkTier3 web_page root_url)

/-- `AccessLinkChecker.execute`: tier 1 (the mention itself is a link, via
`find_link`), then tiers 2 and 3.  An `AttributeError` escaping `find_link`
escapes `execute` as well. -/
def AccessLinkChecker_execute (web_page : List Node) (root_url : String) :
    Except Unit String :=
  match (locTexts [docTag] web_page).find? (fun p => ACCESS_PATTERN p.1) with
  | some p =>
    match find_link p.2 root_url with
    | Except.error e => Except.error e
    | Except.ok (some link) => Except.ok link
    | Except.ok none => accessLinkTier2 web_page root_url
  | none => accessLinkTier2 web_page root_url

/-- Tier 1 finds no link: either no text node matches the mention pattern,
or the first matching node's ancestor walk reaches an anchor/`html` element
without an `href`. -/
def tier1Miss (web_page : List Node) : Prop :=
  (locTexts [docTag] web_page).find? (fun p => ACCESS_PATTERN p.1) = none ∨
  ∃ s anc g, (locTexts [docTag] web_page).find? (fun p => ACCESS_PATTERN p.1) =
      some (s, anc) ∧ walkToAnchor anc = some g ∧ lookupAttr g "href" = none

/-- Tier 2 finds no link: same for the exact text
`"Déclaration d'accessibilité"`. -/
def tier2Miss (web_page : List Node) : Prop :=
  (locTexts [docTag] web_page).find? (fun p => p.1 == "Déclaration d'accessibilité") = none ∨
  ∃ s anc g, (locTexts [docTag] web_page).find?
      (fun p => p.1 == "Déclaration d'accessibilité") = some (s, anc) ∧
    walkToAnchor anc = some g ∧ lookupAttr g "href" = none

theorem exec_of_tier1Miss {web_page : List Node} (root_url : String)
    (h : tier1Miss web_page) :
    AccessLinkChecker_execute web_page root_url = accessLinkTier2 web_page root_url := by
  rcases h with h | ⟨s, anc, g, hfind, hwalk, hhref⟩
  · simp only [AccessLinkChecker_execute, h]
  · simp only [AccessLinkChecker_execute, hfind, find_link_no_href hwalk hhref root_url]

theorem tier2_of_tier2Miss {web_page : List Node} (root_url : String)
    (h : tier2Miss web_page) :
    accessLinkTier2 web_page root_url = Except.ok (accessLinkTier3 web_page root_url) := by
  rcases h with h | ⟨s, anc, g, hfind, hwalk, hhref⟩
  · simp only [accessLinkTier2, h]
  · simp only [accessLinkTier2, hfind, find_link_no_href hwalk hhref root_url]

/-- C1 counterexample: in a parsed document with no `html` element whose
first accessibility mention is not enclosed in an anchor, but which does
contain an anchor whose href ends in `accessibilite`, the checker does not
fall through to tier 3 as claimed: the tier-1 ancestor walk runs past the
document root and an `AttributeError` escapes `execute`. -/
theorem C1_access_link_cex :
    AccessLinkChecker_execute
      [Node.text "Accessibilité : non conforme",
       Node.elem ⟨"a", [("href", "http://x/accessibilite")]⟩ [Node.text "lien"]]
      "http://x" = Except.error () := by
  have h1 : locTexts [docTag]
      [Node.text "Accessibilité : non conforme",
       Node.elem ⟨"a", [("href", "http://x/accessibilite")]⟩ [Node.text "lien"]] =
      [("Accessibilité : non conforme", [docTag]),
       ("lien", [⟨"a", [("href", "http://x/accessibilite")]⟩, docTag])] := by
    simp [locTexts]
  rw [AccessLinkChecker_execute, h1]
  decide

/-- C1 (amended): provided the ancestor walks it performs terminate on an
anchor or `html` element (as in any document with an `html` root), the
checker tries its three tiers in fixed priority order and returns the first
hit: the resolved href of the element ending the walk from the first
accessibility-mention text; otherwise the resolved href of the element
ending the walk from the text `Déclaration d'accessibilité`; otherwise the
first anchor whose resolved href ends in `accessibilite`/`accessibility`;
otherwise the fail sentinel.  (On a document where a needed walk exhausts
all ancestors, an `AttributeError` escapes instead — see the
counterexample.) -/
theorem C1_access_link_priority (web_page : List Node) (root_url : String) :
    (∀ s anc g h,
      (locTexts [docTag] web_page).find? (fun p => ACCESS_PATTERN p.1) = some (s, anc) →
      walkToAnchor anc = some g → lookupAttr g "href" = some h →
      AccessLinkChecker_execute web_page root_url =
        Except.ok (check_and_correct_url h root_url)) ∧
    (tier1Miss web_page → ∀ s anc g h,
      (locTexts [docTag] web_page).find?
          (fun p => p.1 == "Déclaration d'accessibilité") = some (s, anc) →
      walkToAnchor anc = some g → lookupAttr g "href" = some h →
      AccessLinkChecker_execute web_page root_url =
        Except.ok (check_and_correct_url h root_url)) ∧
    (tier1Miss web_page → tier2Miss web_page → ∀ link,
      tier3loop root_url (anchors web_page) = some link →
      AccessLinkChecker_execute web_page root_url = Except.ok link) ∧
    (tier1Miss web_page → tier2Miss web_page →
      tier3loop root_url (anchors web_page) = none →
      AccessLinkChecker_execute web_page root_url = Except.ok FAIL) := by
  refine ⟨?_, ?_, ?_, ?_⟩
  · intro s anc g h hfind hwalk hhref
    simp only [AccessLinkChecker_execute, hfind, find_link_found hwalk hhref root_url]
  · intro hm1 s anc g h hfind hwalk hhref
    rw [exec_of_tier1Miss root_url hm1]
    simp only [accessLinkTier2, hfind, find_link_found hwalk hhref root_url]
  · intro hm1 hm2 link h3
    rw [exec_of_tier1Miss root_url hm1, tier2_of_tier2Miss root_url hm2]
    simp only [accessLinkTier3, h3]
  · intro hm1 hm2 h3
    rw [exec_of_tier1Miss root_url hm1, tier2_of_tier2Miss root_url hm2]
    simp only [accessLinkTier3, h3]

/-- C1 witness: each tier fires on a concrete document — a mention wrapped
in an anchor, a `Déclaration d'accessibilité` link, a bare
`accessibilite` anchor, and an empty document. -/
theorem C1_access_link_priority_witness :
    AccessLinkChecker_execute
        [Node.elem ⟨"a", [("href", "/accessibilite/")]⟩
          [Node.text "Accessibilité : non conforme"]] "https://www.example.com" =
      Except.ok (check_and_correct_url "/accessibilite/" "https://www.example.com") ∧
    AccessLinkChecker_execute
        [Node.elem ⟨"a", [("href", "/misc/accessibilite/")]⟩
          [Node.text "Déclaration d'accessibilité"]] "https://www.example.com" =
      Except.ok (check_and_correct_url "/misc/accessibilite/" "https://www.example.com") ∧
    AccessLinkChecker_execute
        [Node.elem ⟨"a", [("href", "/accessibilite/")]⟩ [Node.text "lien"]]
        "https://www.example.com" =
      Except.ok "https://www.example.com/accessibilite" ∧
    AccessLinkChecker_execute [] "https://www.example.com" = Except.ok FAIL :=
  ⟨(C1_access_link_priority
        [Node.elem ⟨"a", [("href", "/accessibilite/")]⟩
          [Node.text "Accessibilité : non conforme"]] "https://www.example.com").1
      "Accessibilité : non conforme" [⟨"a", [("href", "/accessibilite/")]⟩, docTag]
      ⟨"a", [("href", "/accessibilite/")]⟩ "/accessibilite/"
      (by simp only [locTexts]; decide) (by decide) (by decide),
   (C1_access_link_priority
        [Node.elem ⟨"a", [("href", "/misc/accessibilite/")]⟩
          [Node.text "Déclaration d'accessibilité"]] "https://www.example.com").2.1
      (Or.inl (by simp only [locTexts]; decide))
      "Déclaration d'accessibilité" [⟨"a", [("href", "/misc/accessibilite/")]⟩, docTag]
      ⟨"a", [("href", "/misc/accessibilite/")]⟩ "/misc/accessibilite/"
      (by simp only [locTexts]; decide) (by decide) (by decide),
   (C1_access_link_priority
        [Node.elem ⟨"a", [("href", "/accessibilite/")]⟩ [Node.text "lien"]]
        "https://www.example.com").2.2.1
      (Or.inl (by simp only [locTexts]; decide))
      (Or.inl (by simp only [locTexts]; decide))
      "https://www.example.com/accessibilite"
      (by simp only [anchors, locElems]; decide),
   (C1_access_link_priority [] "https://www.example.com").2.2.2
      (Or.inl (by simp only [locTexts]; decide))
      (Or.inl (by simp only [locTexts]; decide))
      (by simp only [anchors, locElems]; decide)⟩

/-! ## `wasc.checkers.LangChecker` (the Language checker)

`web_page.html` is the first element named `html` anywhere in the document.
With an `html` element present, a missing `lang` attribute raises
`KeyError`, caught to return `FAIL`; with no `html` element at all the
`isinstance` test fails and the function falls off its end, returning
Python `None` (modelled as `none`). -/
def LangChecker_execute (web_page : List Node) : Option String :=
  match (locElems [docTag] web_page).find? (fun p => p.1.name == "html") with
  | some p =>
    match lookupAttr p.1 "lang" with
    | some v => some v
    | none => some FAIL
  | none => none

/-- C6: `<html lang="fr">` yields `"fr"` and `<html>` without `lang` yields
the fail sentinel, but a document with no `html` element yields Python
`None`, not the fail sentinel — the code diverges from the claim (and from
its own docstring) on that input. -/
theorem C6_lang_checker :
    LangChecker_execute [Node.elem ⟨"html", [("lang", "fr")]⟩ []] = some "fr" ∧
    LangChecker_execute [Node.elem ⟨"html", []⟩ []] = some FAIL ∧
    LangChecker_execute [Node.elem ⟨"p", []⟩ [Node.text "bonjour"]] = none ∧
    (none : Option String) ≠ some FAIL := by
  refine ⟨?_, ?_, ?_, by decide⟩ <;>
    · simp only [LangChecker_execute, locElems]
      decide

/-! ## `wasc.checkers.HeadNbChecker` and `HeadLvlChecker` -/

/-- `HeadNbChecker.execute`: `len(web_page.find_all(name="head"))`. -/
def HeadNbChecker_execute (web_page : List Node) : Nat :=
  ((locElems [docTag] web_page).filter (fun p => p.1.name == "head")).length

/-- `HeadLvlChecker.execute`:
`[len(list(tag.parents)) - 1 for tag in head_tag] if head_tag else []`.
`tag.parents` is the ancestor chain up to and including the BeautifulSoup
object, so its length is the length of the recorded ancestor list. -/
def HeadLvlChecker_execute (web_page : List Node) : List Int :=
  let head_tag := (locElems [docTag] web_page).filter (fun p => p.1.name == "head")
  if head_tag.isEmpty then [] else head_tag.map (fun p => (p.2.length : Int) - 1)

theorem locElems_anc_ne_nil :
    ∀ (ns : List Node) (anc : List TagInfo), anc ≠ [] →
      ∀ p ∈ locElems anc ns, p.2 ≠ []
  | [], anc, _ => by simp [locElems]
  | Node.text _ :: rest, anc, h => by
    rw [locElems]
    exact locElems_anc_ne_nil rest anc h
  | Node.doctype _ :: rest, anc, h => by
    rw [locElems]
    exact locElems_anc_ne_nil rest anc h
  | Node.elem t cs :: rest, anc, h => by
    rw [locElems]
    intro p hp
    rcases List.mem_cons.mp hp with rfl | hp
    · exact h
    · rcases List.mem_append.mp hp with hp | hp
      · exact locElems_anc_ne_nil cs (t :: anc) (by simp) p hp
      · exact locElems_anc_ne_nil rest anc h p hp

/-- C10: the list of head depths has exactly one entry per head element
counted by the head-count checker, and every depth is non-negative. -/
theorem C10_head_lvl_nb (web_page : List Node) :
    (HeadLvlChecker_execute web_page).length = HeadNbChecker_execute web_page ∧
    ∀ d ∈ HeadLvlChecker_execute web_page, 0 ≤ d := by
  constructor
  · simp only [HeadLvlChecker_execute, HeadNbChecker_execute]
    by_cases h : ((locElems [docTag] web_page).filter (fun p => p.1.name == "head")).isEmpty
    · rw [if_pos h]
      rw [List.isEmpty_iff.mp h]
      rfl
    · rw [if_neg h, List.length_map]
  · intro d hd
    simp only [HeadLvlChecker_execute] at hd
    by_cases h : ((locElems [docTag] web_page).filter (fun p => p.1.name == "head")).isEmpty
    · rw [if_pos h] at hd
      exact absurd hd (List.not_mem_nil d)
    · rw [if_neg h] at hd
      rcases List.mem_map.mp hd with ⟨p, hp, rfl⟩
      have hmem : p ∈ locElems [docTag] web_page := List.mem_of_mem_filter hp
      have hne : p.2 ≠ [] := locElems_anc_ne_nil web_page [docTag] (by simp) p hmem
      have hlen : 0 < p.2.length := List.length_pos.mpr hne
      omega

/-- C10 witness: one `head` element nested in `html` has depth 1. -/
theorem C10_head_lvl_nb_witness :
    (HeadLvlChecker_execute [Node.elem ⟨"html", []⟩ [Node.elem ⟨"head", []⟩ []]]).length =
      HeadNbChecker_execute [Node.elem ⟨"html", []⟩ [Node.elem ⟨"head", []⟩ []]] ∧
    (0 : Int) ≤ 1 :=
  ⟨(C10_head_lvl_nb [Node.elem ⟨"html", []⟩ [Node.elem ⟨"head", []⟩ []]]).1,
   (C10_head_lvl_nb [Node.elem ⟨"html", []⟩ [Node.elem ⟨"head", []⟩ []]]).2 1
     (by simp only [HeadLvlChecker_execute, locElems]; decide)⟩

/-! ## `wasc.checkers.AccessRateChecker` (the ComplianceRate checker)

The secondary network call `fetch_url(link_url, decode=False)` is modelled
by an explicit `fetch` parameter: `raise` stands for any exception raised
while fetching or reading the response (including `fetch_url` returning
`None`, which makes `response.status` raise `AttributeError`), and `resp`
for a response with a status code and a parsed body. -/

inductive FetchOutcome where
  | raise
  | resp (status : Nat) (page : List Node)

/-- Python `pat in s` (substring containment). -/
def containsSub (pat : List Char) : List Char → Bool
  | [] => startswith [] pat
  | c :: cs => startswith (c :: cs) pat || containsSub pat cs

/-- Matches the regex tail `\ *%` (literal spaces then a percent sign) at
the head of `l`. -/
def tailSp (l : List Char) : Bool :=
  match l.dropWhile (fun c => c == ' ') with
  | '%' :: _ => true
  | _ => false

/-- One repetition `[\.\,]\d+` of the rate regex, returning the consumed
characters and the remainder. -/
def sepDigits (l : List Char) : Option (List Char × List Char) :=
  match l with
  | [] => none
  | c :: rest =>
    if c = '.' ∨ c = ',' then
      if (rest.takeWhile Char.isDigit).isEmpty then none
      else some (c :: rest.takeWhile Char.isDigit, rest.dropWhile Char.isDigit)
    else none

theorem dropWhile_length_le (p : Char → Bool) :
    ∀ l : List Char, (List.dropWhile p l).length ≤ l.length
  | [] => Nat.le_refl _
  | c :: cs => by
    rw [List.dropWhile_cons]
    by_cases h : p c = true
    · rw [if_pos h]
      have := dropWhile_length_le p cs
      simp only [List.length_cons]
      omega
    · rw [if_neg h]

theorem sepDigits_shrink {l : List Char} {sr : List Char × List Char}
    (h : sepDigits l = some sr) : sr.2.length < l.length := by
  cases l with
  | nil => simp [sepDigits] at h
  | cons c rest =>
    rw [sepDigits] at h
    by_cases hc : c = '.' ∨ c = ','
    · rw [if_pos hc] at h
      by_cases he : (rest.takeWhile Char.isDigit).isEmpty
      · rw [if_pos he] at h; cases h
      · rw [if_neg he] at h
        cases h
        have := dropWhile_length_le Char.isDigit rest
        simp only [List.length_cons]
        omega
    · rw [if_neg hc] at h; cases h

/-- The repetitions `([\.\,]\d+)*` followed by `\ *%`: after each
repetition the remainder starts with `.`/`,` (another repetition) or with
a space/`%` (the tail), never both, so the backtracking repetition count is
determined and the matcher below is equivalent to the Python regex. -/
def repsScan (l : List Char) : Option (List Char) :=
  if tailSp l then some []
  else
    match h : sepDigits l with
    | some sr => (repsScan sr.2).map (fun s => sr.1 ++ s)
    | none => none
termination_by l.length
decreasing_by exact sepDigits_shrink h

/-- The alternative `100` of `\s(100|(\d{1,2}([\.\,]\d+)*))\ *%` with its
continuation. -/
def alt100 (l : List Char) : Option (List Char) :=
  if startswith l "100".data && tailSp (l.drop 3) then some "100".data else none

/-- The alternative `\d{1,2}([\.\,]\d+)*`: `\d{1,2}` is greedy, so two
digits are tried before one. -/
def altDigits (l : List Char) : Option (List Char) :=
  match l with
  | d1 :: d2 :: rest =>
    if d1.isDigit && d2.isDigit then
      match repsScan rest with
      | some seg => some (d1 :: d2 :: seg)
      | none =>
        match repsScan (d2 :: rest) with
        | some seg => some (d1 :: seg)
        | none => none
    else if d1.isDigit then
      match repsScan (d2 :: rest) with
      | some seg => some (d1 :: seg)
      | none => none
    else none
  | [d1] =>
    if d1.isDigit then
      match repsScan [] with
      | some seg => some (d1 :: seg)
      | none => none
    else none
  | [] => none

/-- `re.search(r"\s(100|(\d{1,2}([\.\,]\d+)*))\ *%", tag)` at one position:
a whitespace character, the captured group, spaces, `%`.  Returns the
captured group `m[1]`. -/
def percentAt (l : List Char) : Option (List Char) :=
  match l with
  | [] => none
  | c :: rest =>
    if pyWs c then
      match alt100 rest with
      | some cap => some cap
      | none => altDigits rest
    else none

def searchPercent : List Char → Option (List Char)
  | [] => none
  | c :: cs =>
    match percentAt (c :: cs) with
    | some cap => some cap
    | none => searchPercent cs

/-- The scan of the fetched statement page: all text nodes containing `%`
(`find_all(string=re.compile("%"))`); for each one containing
`"conformité"`, search the rate regex and return `m[1] + "%"`. -/
def scanPercent (link_page : List Node) : Option String :=
  (((locTexts [docTag] link_page).map (fun p => p.1)).filter
      (fun s => containsSub "%".data s.data)).findSome?
    (fun tag =>
      if containsSub "conformité".data tag.data then
        match searchPercent tag.data with
        | some m1 => some (⟨m1⟩ ++ "%")
        | none => none
      else none)

/-- `AccessRateChecker.execute`.  The call to `AccessLinkChecker` happens
before the `try`, so an exception from it escapes; everything after is
wrapped in `except Exception`, which degrades to `FAIL`, and a non-200
status falls through to the final `return FAIL`. -/
def AccessRateChecker_execute (web_page : List Node) (root_url : String)
    (fetch : String → FetchOutcome) : Except Unit String :=
  match AccessLinkChecker_execute web_page root_url with
  | Except.error e => Except.error e
  | Except.ok link_url =>
    if link_url = FAIL then Except.ok FAIL
    else
      match fetch link_url with
      | FetchOutcome.raise => Except.ok FAIL
      | FetchOutcome.resp status page =>
        if status = OK then
          match scanPercent page with
          | some rate => Except.ok rate
          | none => Except.ok FAIL
        else Except.ok FAIL

/-! ## Legacy `wasc.default_checkers.DFTT04` / `DFTT05`

`DFTT05` is the other implementation of the ComplianceRate checker cited by
the spec; unlike `AccessRateChecker` its `requests.get` is not wrapped in a
`try`, and a non-OK status triggers an explicit `raise ValueError`. -/

/-- `DFTT04.get_access_url`. -/
def get_access_url (tmp_url url : String) : String :=
  if startswith tmp_url.data "http".data then tmp_url
  else if endswith url.data "/fr".data && startswith tmp_url.data "/fr".data then
    url ++ ⟨tmp_url.data.drop 3⟩
  else url ++ tmp_url

/-- `DFTT04.execute`: the same mention search and ancestor walk as
`find_link`, returning `False` (here `none`) when the anchor has no href. -/
def DFTT04_execute (web_page : List Node) (url : String) : Except Unit (Option String) :=
  match (locTexts [docTag] web_page).find? (fun p => ACCESS_PATTERN p.1) with
  | some p =>
    match walkToAnchor p.2 with
    | none => Except.error ()
    | some g =>
      match lookupAttr g "href" with
      | none => Except.ok none
      | some tmp_url => Except.ok (some (get_access_url tmp_url url))
  | none => Except.ok none

/-- `DFTT05.execute` up to its fetch handling: the post-fetch
`"Résultats des tests"` sibling walk (only reachable on a 200 response) is
passed as the `scan` parameter; `Except.error` models the uncaught
`requests` exception and the explicit `raise ValueError` on a non-OK
status.  The fetch handling of `DFTT05.execute`, split on the result of its
`DFTT04` sub-call. -/
def DFTT05_tail (access_url : Except Unit (Option String))
    (fetch : String → FetchOutcome) (scan : List Node → Option String) :
    Except Unit (Option String) :=
  match access_url with
  | Except.error e => Except.error e
  | Except.ok access_url =>
    match access_url with
    | none => Except.ok none
    | some u =>
      if u = "" then Except.ok none
      else
        match fetch u with
        | FetchOutcome.raise => Except.error ()
        | FetchOutcome.resp status page =>
          if status = OK then Except.ok (scan page)
          else Except.error ()

def DFTT05_execute (web_page : List Node) (url : String)
    (fetch : String → FetchOutcome) (scan : List Node → Option String) :
    Except Unit (Option String) :=
  DFTT05_tail (DFTT04_execute web_page url) fetch scan

/-- C5 counterexample: the legacy `DFTT05` variant cited by the claim does
propagate a secondary-fetch failure: on a non-2xx response it raises
`ValueError` out of `execute` instead of returning a sentinel. -/
theorem C5_rate_cex :
    DFTT05_execute
      [Node.elem ⟨"a", [("href", "http://y/acc")]⟩
        [Node.text "Accessibilité : non conforme"]]
      "http://y" (fun _ => FetchOutcome.resp 404 []) (fun _ => none) =
      Except.error () := by
  have h2 : DFTT04_execute
      [Node.elem ⟨"a", [("href", "http://y/acc")]⟩
        [Node.text "Accessibilité : non conforme"]]
      "http://y" = Except.ok (some "http://y/acc") := by
    have h1 : locTexts [docTag]
        [Node.elem ⟨"a", [("href", "http://y/acc")]⟩
          [Node.text "Accessibilité : non conforme"]] =
        [("Accessibilité : non conforme",
          [⟨"a", [("href", "http://y/acc")]⟩, docTag])] := by
      simp [locTexts]
    rw [DFTT04_execute, h1]
    decide
  rw [DFTT05_execute, h2]
  decide

/-- C5 (amended): in the `wasc.checkers.AccessRateChecker` implementation,
once the accessibility link has been obtained without error, no exception
escapes `execute`, and every secondary-fetch failure — an exception during
the fetch or a non-200 status — yields the sentinel fail value.  (The
legacy `DFTT05` variant instead raises, see the counterexample.) -/
theorem C5_rate_checker (web_page : List Node) (root_url : String)
    (fetch : String → FetchOutcome) (l : String)
    (hlink : AccessLinkChecker_execute web_page root_url = Except.ok l) :
    AccessRateChecker_execute web_page root_url fetch ≠ Except.error () ∧
    (fetch l = FetchOutcome.raise →
      AccessRateChecker_execute web_page root_url fetch = Except.ok FAIL) ∧
    (∀ st pg, fetch l = FetchOutcome.resp st pg → st ≠ OK →
      AccessRateChecker_execute web_page root_url fetch = Except.ok FAIL) := by
  refine ⟨?_, ?_, ?_⟩
  · intro hcontra
    simp only [AccessRateChecker_execute, hlink] at hcontra
    by_cases hF : l = FAIL
    · rw [if_pos hF] at hcontra; simp at hcontra
    · rw [if_neg hF] at hcontra
      cases hfe : fetch l with
      | raise => rw [hfe] at hcontra; simp at hcontra
      | resp st pg =>
        rw [hfe] at hcontra
        replace hcontra : (if st = OK then
            match scanPercent pg with
            | some rate => Except.ok rate
            | none => Except.ok FAIL
          else Except.ok FAIL) = Except.error () := hcontra
        by_cases hst : st = OK
        · rw [if_pos hst] at hcontra
          cases hsc : scanPercent pg <;> rw [hsc] at hcontra <;> simp at hcontra
        · rw [if_neg hst] at hcontra; simp at hcontra
  · intro hfe
    simp only [AccessRateChecker_execute, hlink]
    by_cases hF : l = FAIL
    · rw [if_pos hF]
    · rw [if_neg hF, hfe]
  · intro st pg hfe hst
    simp only [AccessRateChecker_execute, hlink]
    by_cases hF : l = FAIL
    · rw [if_pos hF]
    · rw [if_neg hF, hfe]
      show (if st = OK then
          match scanPercent pg with
          | some rate => Except.ok rate
          | none => Except.ok FAIL
        else Except.ok FAIL) = Except.ok FAIL
      rw [if_neg hst]

/-- C5 witness: a page whose mention links to `/accessibilite/`, with a
fetch that answers 500: the checker returns the fail sentinel. -/
theorem C5_rate_checker_witness :
    AccessRateChecker_execute
      [Node.elem ⟨"a", [("href", "/accessibilite/")]⟩
        [Node.text "Accessibilité : non conforme"]]
      "https://www.example.com" (fun _ => FetchOutcome.resp 500 []) =
      Except.ok FAIL :=
  (C5_rate_checker
      [Node.elem ⟨"a", [("href", "/accessibilite/")]⟩
        [Node.text "Accessibilité : non conforme"]]
      "https://www.example.com" (fun _ => FetchOutcome.resp 500 [])
      (check_and_correct_url "/accessibilite/" "https://www.example.com")
      (by
        have h1 : locTexts [docTag]
            [Node.elem ⟨"a", [("href", "/accessibilite/")]⟩
              [Node.text "Accessibilité : non conforme"]] =
            [("Accessibilité : non conforme",
              [⟨"a", [("href", "/accessibilite/")]⟩, docTag])] := by
          simp [locTexts]
        rw [AccessLinkChecker_execute, h1]
        decide)).2.2 500 [] rfl (by decide)

/-! ## `wasc.checkers.LegalChecker` (the LegalNotice checker)

Text search with `re.compile("Mentions* l[eé]gales*", re.IGNORECASE)`; for
each match an ancestor walk identical to `find_link`'s loop, then
`attrs["href"]` under `except KeyError : pass`, and the resolved link is
returned only when it differs from the root URL; with no link found, the
conventional URL `root_url/mentions-legales` is probed with `fetch_url`. -/

/-- Does `Mentions* l[eé]gales*` match at the head of `l`?  The starred
`s*` is greedy; since `s` is distinct from the mandatory following space,
greedy matching is equivalent to the backtracking regex. -/
def legalAt (l : List Char) : Bool :=
  match stripPrefixCI "mention".data l with
  | none => false
  | some l1 =>
    match l1.dropWhile (fun c => lc c == 's') with
    | ' ' :: l3 =>
      (match l3 with
      | c :: l4 =>
        if lc c = 'l' then
          match l4 with
          | e :: l5 =>
            if lc e = 'e' ∨ lc e = 'é' then (stripPrefixCI "gale".data l5).isSome
            else false
          | [] => false
        else false
      | [] => false)
    | _ => false

def legalSearch : List Char → Bool
  | [] => legalAt []
  | c :: cs => legalAt (c :: cs) || legalSearch cs

def LEGAL_PATTERN (s : String) : Bool := legalSearch s.data

/-- The `for tag in legal_tags` loop of `LegalChecker.execute`: walk to the
nearest anchor/`html` element (walking past the document root raises
`AttributeError`, uncaught), skip on missing `href` (`KeyError` caught),
and return the resolved link only if it differs from the root URL. -/
def legalLoop (root_url : String) :
    List (String × List TagInfo) → Except Unit (Option String)
  | [] => Except.ok none
  | p :: rest =>
    match walkToAnchor p.2 with
    | none => Except.error ()
    | some g =>
      match lookupAttr g "href" with
      | none => legalLoop root_url rest
      | some href =>
        if root_url ≠ check_and_correct_url href root_url then
          Except.ok (some (check_and_correct_url href root_url))
        else legalLoop root_url rest

/-- The tail of `LegalChecker.execute` on the loop's result: on no link,
probe `root_url/mentions-legales`; a fetch exception degrades to `FAIL`,
a 200 status returns the probe URL, anything else falls through to
`FAIL`. -/
def legalProbe (root_url : String) (fetch : String → FetchOutcome)
    (loop_result : Except Unit (Option String)) : Except Unit String :=
  match loop_result with
  | Except.error e => Except.error e
  | Except.ok (some legal_link) => Except.ok legal_link
  | Except.ok none =>
    match fetch (check_and_correct_url "mentions-legales" root_url) with
    | FetchOutcome.raise => Except.ok FAIL
    | FetchOutcome.resp status _ =>
      if status = OK then Except.ok (check_and_correct_url "mentions-legales" root_url)
      else Except.ok FAIL

def LegalChecker_execute (web_page : List Node) (root_url : String)
    (fetch : String → FetchOutcome) : Except Unit String :=
  legalProbe root_url fetch
    (legalLoop root_url ((locTexts [docTag] web_page).filter (fun p => LEGAL_PATTERN p.1)))

/-- C8 counterexample: a text node `Mentions légales` inside an anchor
whose href resolves exactly to the root URL.  The claim says the resolved
href of the matching anchor is returned; the code skips any link equal to
the root, probes the conventional URL, and (probe failing) returns the
fail sentinel. -/
theorem C8_legal_checker_cex :
    LegalChecker_execute
      [Node.elem ⟨"a", [("href", "http://x")]⟩ [Node.text "Mentions légales"]]
      "http://x" (fun _ => FetchOutcome.raise) = Except.ok FAIL ∧
    FAIL ≠ ("http://x" : String) := by
  constructor
  · have h1 : locTexts [docTag]
        [Node.elem ⟨"a", [("href", "http://x")]⟩ [Node.text "Mentions légales"]] =
        [("Mentions légales", [⟨"a", [("href", "http://x")]⟩, docTag])] := by
      simp [locTexts]
    rw [LegalChecker_execute, h1]
    decide
  · decide

/-- C8 (amended): when the first text node matching the legal-notice
pattern has an enclosing anchor whose resolved href differs from the root
URL, that resolved href is returned; when no text node matches, the checker
probes `root_url/mentions-legales` and returns that URL exactly when the
probe reports status 200, the fail sentinel on a fetch exception or any
other status. -/
theorem C8_legal_checker (web_page : List Node) (root_url : String)
    (fetch : String → FetchOutcome) :
    (∀ s anc rest g h,
      (locTexts [docTag] web_page).filter (fun p => LEGAL_PATTERN p.1) = (s, anc) :: rest →
      walkToAnchor anc = some g → lookupAttr g "href" = some h →
      root_url ≠ check_and_correct_url h root_url →
      LegalChecker_execute web_page root_url fetch =
        Except.ok (check_and_correct_url h root_url)) ∧
    ((locTexts [docTag] web_page).filter (fun p => LEGAL_PATTERN p.1) = [] →
      ∀ pg, fetch (check_and_correct_url "mentions-legales" root_url) =
          FetchOutcome.resp OK pg →
      LegalChecker_execute web_page root_url fetch =
        Except.ok (check_and_correct_url "mentions-legales" root_url)) ∧
    ((locTexts [docTag] web_page).filter (fun p => LEGAL_PATTERN p.1) = [] →
      fetch (check_and_correct_url "mentions-legales" root_url) = FetchOutcome.raise →
      LegalChecker_execute web_page root_url fetch = Except.ok FAIL) ∧
    ((locTexts [docTag] web_page).filter (fun p => LEGAL_PATTERN p.1) = [] →
      ∀ st pg, fetch (check_and_correct_url "mentions-legales" root_url) =
          FetchOutcome.resp st pg → st ≠ OK →
      LegalChecker_execute web_page root_url fetch = Except.ok FAIL) := by
  refine ⟨?_, ?_, ?_, ?_⟩
  · intro s anc rest g h hfilter hwalk hhref hne
    rw [LegalChecker_execute, hfilter, legalLoop, hwalk]
    show legalProbe root_url fetch
        (match lookupAttr g "href" with
        | none => legalLoop root_url rest
        | some href =>
          if root_url ≠ check_and_correct_url href root_url then
            Except.ok (some (check_and_correct_url href root_url))
          else legalLoop root_url rest) =
      Except.ok (check_and_correct_url h root_url)
    rw [hhref]
    show legalProbe root_url fetch
        (if root_url ≠ check_and_correct_url h root_url then
          Except.ok (some (check_and_correct_url h root_url))
        else legalLoop root_url rest) =
      Except.ok (check_and_correct_url h root_url)
    rw [if_pos hne]
    rfl
  · intro hfilter pg hfe
    rw [LegalChecker_execute, hfilter, legalLoop, legalProbe, hfe]
    show (if OK = OK then
        Except.ok (check_and_correct_url "mentions-legales" root_url)
      else Except.ok FAIL) = Except.ok (check_and_correct_url "mentions-legales" root_url)
    rw [if_pos rfl]
  · intro hfilter hfe
    rw [LegalChecker_execute, hfilter, legalLoop, legalProbe, hfe]
  · intro hfilter st pg hfe hst
    rw [LegalChecker_execute, hfilter, legalLoop, legalProbe, hfe]
    show (if st = OK then
        Except.ok (check_and_correct_url "mentions-legales" root_url)
      else Except.ok FAIL) = Except.ok FAIL
    rw [if_neg hst]

/-- C8 witness: the four amended behaviours at concrete documents. -/
theorem C8_legal_checker_witness :
    LegalChecker_execute
        [Node.elem ⟨"a", [("href", "/misc/mentions-legales/")]⟩
          [Node.text "Mentions légales"]]
        "https://www.example.com" (fun _ => FetchOutcome.raise) =
      Except.ok (check_and_correct_url "/misc/mentions-legales/" "https://www.example.com") ∧
    LegalChecker_execute [] "https://www.gouvernement.fr"
        (fun _ => FetchOutcome.resp 200 []) =
      Except.ok (check_and_correct_url "mentions-legales" "https://www.gouvernement.fr") ∧
    LegalChecker_execute [] "https://www.example.com" (fun _ => FetchOutcome.raise) =
      Except.ok FAIL ∧
    LegalChecker_execute [] "https://www.example.com"
        (fun _ => FetchOutcome.resp 404 []) = Except.ok FAIL :=
  ⟨(C8_legal_checker
        [Node.elem ⟨"a", [("href", "/misc/mentions-legales/")]⟩
          [Node.text "Mentions légales"]]
        "https://www.example.com" (fun _ => FetchOutcome.raise)).1
      "Mentions légales" [⟨"a", [("href", "/misc/mentions-legales/")]⟩, docTag] []
      ⟨"a", [("href", "/misc/mentions-legales/")]⟩ "/misc/mentions-legales/"
      (by simp only [locTexts]; decide) (by decide) (by decide) (by decide),
   (C8_legal_checker [] "https://www.gouvernement.fr"
        (fun _ => FetchOutcome.resp 200 [])).2.1
      (by simp only [locTexts]; decide) [] rfl,
   (C8_legal_checker [] "https://www.example.com" (fun _ => FetchOutcome.raise)).2.2.1
      (by simp only [locTexts]; decide) rfl,
   (C8_legal_checker [] "https://www.example.com"
        (fun _ => FetchOutcome.resp 404 [])).2.2.2
      (by simp only [locTexts]; decide) 404 [] rfl (by decide)⟩

/-! ## `wasc.checker_factory` and `wasc.criterion`

The factory's `__checker_dict` is the association list built by the eleven
`register` calls at the bottom of `checker_factory.py` (keys are distinct,
so dictionary overwrite semantics and list lookup agree); `create` does
`self.__checker_dict[checker_name]()` — a `KeyError` on an unknown name,
otherwise a fresh instance carrying the name and description set by the
checker's `__init__`.  `Criterion.__init__` raises `ValueError` on an empty
checker list and otherwise resolves every name through the factory at
construction time (a list comprehension, left to right, propagating the
first `KeyError`). -/

inductive ChkCls where
  | HeadNbChecker
  | HeadLvlChecker
  | AccessRateChecker
  | LangChecker
  | DoctypeChecker
  | AccessChecker
  | AccessLinkChecker
  | LegalChecker
  | HeaderChecker
  | FooterChecker
  | ContactLinkChecker
deriving DecidableEq

structure Checker where
  name : String
  description : String
deriving DecidableEq

/-- Instantiating a checker class: the `name`/`description` pairs set in
each `__init__` of `wasc/checkers.py`. -/
def instantiate : ChkCls → Checker
  | ChkCls.HeadNbChecker => ⟨"HeadNbChecker", "Nombre de <head>"⟩
  | ChkCls.HeadLvlChecker => ⟨"HeadLvlChecker", "Profondeurs des <head>"⟩
  | ChkCls.AccessRateChecker => ⟨"AccessRateChecker", "Taux d'accessibilité"⟩
  | ChkCls.LangChecker => ⟨"LangChecker", "Lang"⟩
  | ChkCls.DoctypeChecker => ⟨"DoctypeChecker", "Doctype"⟩
  | ChkCls.AccessChecker => ⟨"AccessChecker", "Mention accessibilité"⟩
  | ChkCls.AccessLinkChecker => ⟨"AccessLinkChecker", "Lien accessibilité"⟩
  | ChkCls.LegalChecker => ⟨"LegalChecker", "Mentions légales"⟩
  | ChkCls.HeaderChecker => ⟨"HeaderChecker", "Header"⟩
  | ChkCls.FooterChecker => ⟨"FooterChecker", "Footer"⟩
  | ChkCls.ContactLinkChecker => ⟨"ContactLinkChecker", "Lien Contact"⟩

def checker_factory : List (String × ChkCls) :=
  [("HeadNbChecker", ChkCls.HeadNbChecker),
   ("HeadLvlChecker", ChkCls.HeadLvlChecker),
   ("AccessRateChecker", ChkCls.AccessRateChecker),
   ("LangChecker", ChkCls.LangChecker),
   ("DoctypeChecker", ChkCls.DoctypeChecker),
   ("AccessChecker", ChkCls.AccessChecker),
   ("AccessLinkChecker", ChkCls.AccessLinkChecker),
   ("LegalChecker", ChkCls.LegalChecker),
   ("HeaderChecker", ChkCls.HeaderChecker),
   ("FooterChecker", ChkCls.FooterChecker),
   ("ContactLinkChecker", ChkCls.ContactLinkChecker)]

/-- `CheckerFactory.create`: `Except.error ()` is the `KeyError`. -/
def create (factory : List (String × ChkCls)) (checker_name : String) :
    Except Unit Checker :=
  match List.lookup checker_name factory with
  | some cls => Except.ok (instantiate cls)
  | none => Except.error ()

/-- The list comprehension
`[checker_factory.create(checker) for checker in checkers]`: left to
right, the first `KeyError` propagates. -/
def mapCreate (factory : List (String × ChkCls)) :
    List String → Except Unit (List Checker)
  | [] => Except.ok []
  | c :: cs =>
    match create factory c with
    | Except.error e => Except.error e
    | Except.ok inst =>
      match mapCreate factory cs with
      | Except.error e => Except.error e
      | Except.ok insts => Except.ok (inst :: insts)

structure Criterion where
  name : String
  checkers : List Checker
deriving DecidableEq

inductive CritError where
  | valueError
  | keyError
deriving DecidableEq

/-- `Criterion.__init__`. -/
def criterionInit (factory : List (String × ChkCls)) (name : String)
    (checkers : List String) : Except CritError Criterion :=
  if checkers = [] then Except.error CritError.valueError
  else
    match mapCreate factory checkers with
    | Except.error _ => Except.error CritError.keyError
    | Except.ok insts => Except.ok ⟨name, insts⟩

theorem mapCreate_error {factory : List (String × ChkCls)} {c : String} :
    ∀ {cs : List String}, c ∈ cs → List.lookup c factory = none →
      mapCreate factory cs = Except.error () := by
  intro cs
  induction cs with
  | nil => intro hc; exact absurd hc (List.not_mem_nil c)
  | cons d ds ih =>
    intro hc hl
    rw [mapCreate]
    rcases List.mem_cons.mp hc with rfl | hc'
    · rw [create, hl]
    · cases hcr : create factory d with
      | error e => cases e; rfl
      | ok inst => rw [ih hc' hl]

theorem mapCreate_forall₂ {factory : List (String × ChkCls)} :
    ∀ {cs : List String} {insts : List Checker},
      mapCreate factory cs = Except.ok insts →
      List.Forall₂ (fun c inst => create factory c = Except.ok inst) cs insts := by
  intro cs
  induction cs with
  | nil =>
    intro insts h
    rw [mapCreate] at h
    cases h
    exact List.Forall₂.nil
  | cons d ds ih =>
    intro insts h
    rw [mapCreate] at h
    cases hcr : create factory d with
    | error e => rw [hcr] at h; cases h
    | ok inst =>
      rw [hcr] at h
      cases hmc : mapCreate factory ds with
      | error e => rw [hmc] at h; cases h
      | ok insts' =>
        rw [hmc] at h
        cases h
        exact List.Forall₂.cons hcr (ih hmc)

theorem mapCreate_ok_of_registered {factory : List (String × ChkCls)} :
    ∀ {cs : List String}, (∀ c ∈ cs, (List.lookup c factory).isSome) →
      ∃ insts, mapCreate factory cs = Except.ok insts := by
  intro cs
  induction cs with
  | nil => intro _; exact ⟨[], rfl⟩
  | cons d ds ih =>
    intro hreg
    rcases Option.isSome_iff_exists.mp (hreg d (List.mem_cons_self d ds)) with ⟨cls, hcls⟩
    rcases ih (fun c hc => hreg c (List.mem_cons_of_mem d hc)) with ⟨insts, hinsts⟩
    refine ⟨instantiate cls :: insts, ?_⟩
    rw [mapCreate, create, hcls, hinsts]

/-- C9: `Criterion` construction fails fast — an empty checker list raises
`ValueError`; a non-empty list containing an unregistered name raises the
factory's lookup `KeyError`; and on success (all names registered) no error
is raised and every listed name has been resolved through the factory to a
checker instance at construction time, in order. -/
theorem C9_criterion_fail_fast (name : String) (cs : List String) :
    (criterionInit checker_factory name [] = Except.error CritError.valueError) ∧
    (cs ≠ [] → (∃ c ∈ cs, List.lookup c checker_factory = none) →
      criterionInit checker_factory name cs = Except.error CritError.keyError) ∧
    (cs ≠ [] → (∀ c ∈ cs, (List.lookup c checker_factory).isSome) →
      ∀ crit, criterionInit checker_factory name cs = Except.ok crit →
        crit.name = name ∧
        List.Forall₂ (fun c inst => create checker_factory c = Except.ok inst)
          cs crit.checkers) ∧
    (cs ≠ [] → (∀ c ∈ cs, (List.lookup c checker_factory).isSome) →
      (criterionInit checker_factory name cs).isOk = true) := by
  refine ⟨?_, ?_, ?_, ?_⟩
  · rw [criterionInit, if_pos rfl]
  · intro hne ⟨c, hc, hl⟩
    rw [criterionInit, if_neg hne, mapCreate_error hc hl]
  · intro hne hreg crit hok
    rw [criterionInit, if_neg hne] at hok
    cases hmc : mapCreate checker_factory cs with
    | error e => rw [hmc] at hok; cases hok
    | ok insts =>
      rw [hmc] at hok
      cases hok
      exact ⟨rfl, mapCreate_forall₂ hmc⟩
  · intro hne hreg
    rcases mapCreate_ok_of_registered hreg with ⟨insts, hinsts⟩
    rw [criterionInit, if_neg hne, hinsts]
    rfl

/-- C9 witness: the three failure/success behaviours at concrete inputs. -/
theorem C9_criterion_fail_fast_witness :
    criterionInit checker_factory "Crit" [] = Except.error CritError.valueError ∧
    criterionInit checker_factory "Crit" ["Nope"] = Except.error CritError.keyError ∧
    (("Crit" : String) = "Crit" ∧
      List.Forall₂ (fun c inst => create checker_factory c = Except.ok inst)
        ["LangChecker"] [⟨"LangChecker", "Lang"⟩]) ∧
    (criterionInit checker_factory "Crit" ["LangChecker"]).isOk = true :=
  ⟨(C9_criterion_fail_fast "Crit" ["Nope"]).1,
   (C9_criterion_fail_fast "Crit" ["Nope"]).2.1 (by decide) ⟨"Nope", by decide, by decide⟩,
   (C9_criterion_fail_fast "Crit" ["LangChecker"]).2.2.1 (by decide) (by decide)
     ⟨"Crit", [⟨"LangChecker", "Lang"⟩]⟩ (by decide),
   (C9_criterion_fail_fast "Crit" ["LangChecker"]).2.2.2 (by decide) (by decide)⟩
